import Mathlib

/-!
Verification of the odds-flattening transform of SportsMarketTrading.

The development shallowly embeds `flatten_odds` from
`src/ingest_odds_from_api.py`. Raw input structures mirror the nested JSON
shape (events containing bookmakers containing markets containing outcomes);
optional JSON fields are `Option`-valued. Python dictionaries keyed by
strings are embedded as insertion-ordered association lists with
replace-in-place insertion, matching CPython dict semantics (an update of an
existing key keeps its original position). Exceptions (KeyError from
`event["id"]`-style mandatory lookups, AttributeError from the
`odds_df.columnsz` attribute access on line 101) are embedded with `Except`.
`pandas.to_datetime(..., errors="coerce", utc=True)` is embedded by a small
ISO-8601 reader returning `Option Nat` (an abstract UTC instant), with
`none` for absent, empty or unreadable values.
-/

/-- Raw outcome structure nested in a market (JSON object). -/
structure RawOutcome where
  name : Option String
  price : Option Int
  point : Option Int
deriving Repr, DecidableEq

/-- Raw market structure nested in a bookmaker (JSON object). -/
structure RawMarket where
  key : Option String
  last_update : Option String
  outcomes : Option (List RawOutcome)
deriving Repr, DecidableEq

/-- Raw bookmaker structure nested in an event (JSON object). -/
structure RawBookmaker where
  key : Option String
  title : Option String
  last_update : Option String
  markets : Option (List RawMarket)
deriving Repr, DecidableEq

/-- Raw event structure, one element of the JSON array handed to
`flatten_odds`. -/
structure RawEvent where
  id : Option String
  sport_key : Option String
  sport_title : Option String
  commence_time : Option String
  home_team : Option String
  away_team : Option String
  bookmakers : Option (List RawBookmaker)
deriving Repr, DecidableEq

/-- Entry of the intermediate `events_rows` dictionary (lines 43-50),
timestamps still in raw string form. -/
structure EventRow where
  event_id : String
  sport_key : String
  sport_title : Option String
  commence_time_utc : Option String
  home_team : Option String
  away_team : Option String
deriving Repr, DecidableEq

/-- Entry of the `bookmakers_rows` dictionary (lines 58-61); also the final
output row, as no timestamp column exists on it. -/
structure BookmakerRecord where
  bookmaker_key : String
  bookmaker_title : Option String
deriving Repr, DecidableEq

/-- Entry of the `odds_rows` list (lines 79-91), timestamps still raw. -/
structure OddsRow where
  event_id : String
  bookmaker_key : String
  market_key : String
  outcome_name : Option String
  is_home_team : Option Bool
  price_american : Option Int
  line_point : Option Int
  event_commence_utc : Option String
  market_last_update : Option String
deriving Repr, DecidableEq

/-- Final event dimension row after the timestamp coercion of line 100. -/
structure EventRecord where
  event_id : String
  sport_key : String
  sport_title : Option String
  commence_time_utc : Option Nat
  home_team : Option String
  away_team : Option String
deriving Repr, DecidableEq

/-- Final odds fact row after timestamp coercion. -/
structure OddsSnapshotRecord where
  event_id : String
  bookmaker_key : String
  market_key : String
  outcome_name : Option String
  is_home_team : Option Bool
  price_american : Option Int
  line_point : Option Int
  event_commence_utc : Option Nat
  market_last_update : Option Nat
deriving Repr, DecidableEq

/-- Python exceptions that can escape `flatten_odds`. -/
inductive PyError where
  | keyError (field : String)
  | attributeError (attr : String)
deriving Repr, DecidableEq

/-! ## Python dictionaries as insertion-ordered association lists -/

/-- Lookup in an insertion-ordered association list (Python `d[k]` / `k in d`). -/
def dictLookup (k : String) : List (String × α) → Option α
  | [] => none
  | (k', v) :: d => if k' = k then some v else dictLookup k d

/-- CPython dict assignment `d[k] = v`: an existing key keeps its position and
gets the new value, a fresh key is appended at the end. -/
def dictInsert (k : String) (v : α) : List (String × α) → List (String × α)
  | [] => [(k, v)]
  | (k', v') :: d => if k' = k then (k, v) :: d else (k', v') :: dictInsert k v d

/-- Keys in insertion order. -/
def dictKeys (d : List (String × α)) : List String := d.map (·.1)

/-- Values in insertion order: the row order that
`pd.DataFrame.from_dict(..., orient="index")` produces on line 93/94. -/
def dictValues (d : List (String × α)) : List α := d.map (·.2)

/-! ## Timestamp coercion -/

/-- Digit run to a number; `none` when empty or not all digits. -/
def digitsVal (cs : List Char) : Option Nat :=
  if cs.isEmpty then none
  else cs.foldl
    (fun acc c =>
      match acc with
      | none => none
      | some n => if c.isDigit then some (n * 10 + (c.toNat - 48)) else none)
    (some 0)

/-- Split a character list at every occurrence of `c`. -/
def splitOnChar (c : Char) : List Char → List (List Char)
  | [] => [[]]
  | x :: xs =>
    let r := splitOnChar c xs
    if x = c then [] :: r
    else
      match r with
      | [] => [[x]]
      | y :: ys => (x :: y) :: ys

/-- Reader for ISO-8601 instants of the shape `YYYY-MM-DDTHH:MM:SS` with an
optional trailing `Z`, producing an abstract UTC instant as a `Nat`. This
embeds the accepting core of `pandas.to_datetime(..., utc=True)` on the
timestamp strings this feed carries; any other string is rejected. -/
def parseISO8601 (s : String) : Option Nat :=
  match splitOnChar 'T' s.toList with
  | [date, time] =>
    match splitOnChar '-' date with
    | [ys, ms, ds] =>
      let time' := match time.getLast? with
        | some 'Z' => time.dropLast
        | _ => time
      match splitOnChar ':' time' with
      | [hs, mins, ss] =>
        match digitsVal ys, digitsVal ms, digitsVal ds,
              digitsVal hs, digitsVal mins, digitsVal ss with
        | some y, some mo, some d, some h, some mi, some sec =>
          if 1 ≤ mo ∧ mo ≤ 12 ∧ 1 ≤ d ∧ d ≤ 31 ∧ h ≤ 23 ∧ mi ≤ 59 ∧ sec ≤ 59 then
            some (((((y * 13 + mo) * 32 + d) * 24 + h) * 60 + mi) * 60 + sec)
          else none
        | _, _, _, _, _, _ => none
      | _ => none
    | _ => none
  | _ => none

/-- `pd.to_datetime(x, errors="coerce", utc=True)` on one cell: absent input
(`None`/`NaN`) and strings that do not read as timestamps become null
(`NaT`); this never raises. -/
def pdToDatetime : Option String → Option Nat
  | none => none
  | some s => parseISO8601 s

/-- Timestamp coercion of one event dimension row (line 100 applied to the
one timestamp column `commence_time_utc` present on `events_df`). -/
def coerceEventRow (r : EventRow) : EventRecord :=
  { event_id := r.event_id
    sport_key := r.sport_key
    sport_title := r.sport_title
    commence_time_utc := pdToDatetime r.commence_time_utc
    home_team := r.home_team
    away_team := r.away_team }

/-- Timestamp coercion of one odds fact row (the two timestamp columns
`event_commence_utc` and `market_last_update`). -/
def coerceOddsRow (r : OddsRow) : OddsSnapshotRecord :=
  { event_id := r.event_id
    bookmaker_key := r.bookmaker_key
    market_key := r.market_key
    outcome_name := r.outcome_name
    is_home_team := r.is_home_team
    price_american := r.price_american
    line_point := r.line_point
    event_commence_utc := pdToDatetime r.event_commence_utc
    market_last_update := pdToDatetime r.market_last_update }

/-! ## The traversal (lines 34-91) -/

/-- Python truthiness of an optional string: `None` and `""` are falsy. -/
def pyTruthy : Option String → Bool
  | none => false
  | some s => s ≠ ""

/-- Lines 72-77: the `is_home_team` derivation for one outcome. -/
def isHomeTeam (outcome_name home_team away_team : Option String) : Option Bool :=
  if pyTruthy outcome_name ∧ pyTruthy home_team then
    if outcome_name = home_team then some true
    else if outcome_name = away_team then some false
    else none
  else none

/-- Lines 63-91: process one market, producing its fact rows; `market["key"]`
raises KeyError when absent (line 64); line 65 falls back to the enclosing
bookmaker last-update when the market has none. -/
def flattenMarket (event_id bookmaker_key : String)
    (commence_time home_team away_team bookmaker_last_update : Option String)
    (m : RawMarket) : Except PyError (List OddsRow) :=
  match m.key with
  | none => .error (.keyError "key")
  | some market_key =>
    let market_last_update := match m.last_update with
      | some s => some s
      | none => bookmaker_last_update
    .ok ((m.outcomes.getD []).map (fun o =>
      { event_id := event_id
        bookmaker_key := bookmaker_key
        market_key := market_key
        outcome_name := o.name
        is_home_team := isHomeTeam o.name home_team away_team
        price_american := o.price
        line_point := o.point
        event_commence_utc := commence_time
        market_last_update := market_last_update }))

/-- The `for market in book.get("markets", [])` loop for one bookmaker. -/
def flattenMarkets (event_id bookmaker_key : String)
    (commence_time home_team away_team bookmaker_last_update : Option String) :
    List RawMarket → Except PyError (List OddsRow)
  | [] => .ok []
  | m :: ms =>
    match flattenMarket event_id bookmaker_key commence_time home_team away_team
        bookmaker_last_update m with
    | .error e => .error e
    | .ok rows =>
      match flattenMarkets event_id bookmaker_key commence_time home_team away_team
          bookmaker_last_update ms with
      | .error e => .error e
      | .ok rest => .ok (rows ++ rest)

/-- Lines 52-91: the `for book in event.get("bookmakers", [])` loop, threading
the batch-global `bookmakers_rows` dictionary; `book["key"]` raises KeyError
when absent (line 53); the bookmaker row is written (line 58) before the
markets of the bookmaker are walked. -/
def flattenBooks (event_id : String)
    (commence_time home_team away_team : Option String) :
    List RawBookmaker → List (String × BookmakerRecord) →
    Except PyError (List OddsRow × List (String × BookmakerRecord))
  | [], bd => .ok ([], bd)
  | b :: bs, bd =>
    match b.key with
    | none => .error (.keyError "key")
    | some bookmaker_key =>
      let bd1 := dictInsert bookmaker_key
        { bookmaker_key := bookmaker_key, bookmaker_title := b.title } bd
      match flattenMarkets event_id bookmaker_key commence_time home_team away_team
          b.last_update (b.markets.getD []) with
      | .error e => .error e
      | .ok rows =>
        match flattenBooks event_id commence_time home_team away_team bs bd1 with
        | .error e => .error e
        | .ok (rest, bd2) => .ok (rows ++ rest, bd2)

/-- Lines 34-91: the outer `for event in json_data` loop, threading both
dictionaries and accumulating fact rows in traversal order. `event["id"]` and
`event["sport_key"]` (lines 35-36) raise KeyError when absent; the event row
is written (line 43) before the bookmakers of the event are walked. -/
def flattenEvents :
    List RawEvent → List (String × EventRow) → List (String × BookmakerRecord) →
    Except PyError (List OddsRow × List (String × EventRow) × List (String × BookmakerRecord))
  | [], ed, bd => .ok ([], ed, bd)
  | e :: es, ed, bd =>
    match e.id with
    | none => .error (.keyError "id")
    | some event_id =>
      match e.sport_key with
      | none => .error (.keyError "sport_key")
      | some sport_key =>
        let ed1 := dictInsert event_id
          { event_id := event_id
            sport_key := sport_key
            sport_title := e.sport_title
            commence_time_utc := e.commence_time
            home_team := e.home_team
            away_team := e.away_team } ed
        match flattenBooks event_id e.commence_time e.home_team e.away_team
            (e.bookmakers.getD []) bd with
        | .error err => .error err
        | .ok (rows, bd1) =>
          match flattenEvents es ed1 bd1 with
          | .error err => .error err
          | .ok (rest, ed2, bd2) => .ok (rows ++ rest, ed2, bd2)

/-! ## Materialization and the coercion loop (lines 93-104) -/

/-- Column labels of `odds_df` (line 95): a DataFrame built from an empty list
of row dictionaries has no columns at all. -/
def oddsDfColumns (odds_rows : List OddsRow) : List String :=
  if odds_rows.isEmpty then []
  else ["event_id", "bookmaker_key", "market_key", "outcome_name", "is_home_team",
        "price_american", "line_point", "event_commence_utc", "market_last_update"]

/-- `flatten_odds` as shipped in `src/ingest_odds_from_api.py` (lines 25-104).
The coercion loop body reads `odds_df.columnsz` (line 101); pandas attribute
lookup falls back to column lookup, and since no column is named `columnsz`
this raises AttributeError on the very first loop iteration, for every input
that survives the traversal. -/
def flatten_odds (json_data : List RawEvent) :
    Except PyError (List EventRecord × List BookmakerRecord × List OddsSnapshotRecord) :=
  match flattenEvents json_data [] [] with
  | .error e => .error e
  | .ok (odds_rows, events_rows, bookmakers_rows) =>
    if "columnsz" ∈ oddsDfColumns odds_rows then
      .ok ((dictValues events_rows).map coerceEventRow,
           dictValues bookmakers_rows,
           odds_rows.map coerceOddsRow)
    else .error (.attributeError "columnsz")

/-- Modelled from the spec: section 9 states the repository holds a second,
near-duplicate CSV-sink copy of fetch+flatten whose coercion loop is correct
(`odds_df.columns` instead of the `columnsz` typo) and is to be treated as the
canonical behavior; that file is not under `src/`. Identical to
`flatten_odds` except that the final loop coerces the timestamp columns that
are present and then returns the three outputs. -/
def flatten_odds_csv (json_data : List RawEvent) :
    Except PyError (List EventRecord × List BookmakerRecord × List OddsSnapshotRecord) :=
  match flattenEvents json_data [] [] with
  | .error e => .error e
  | .ok (odds_rows, events_rows, bookmakers_rows) =>
    .ok ((dictValues events_rows).map coerceEventRow,
         dictValues bookmakers_rows,
         odds_rows.map coerceOddsRow)

/-! ## Reference descriptions used by the statements -/

/-- The event row the traversal writes for a raw event (defaults are only
reached on events that would have raised KeyError). -/
def eventRowOf (e : RawEvent) : EventRow :=
  { event_id := e.id.getD ""
    sport_key := e.sport_key.getD ""
    sport_title := e.sport_title
    commence_time_utc := e.commence_time
    home_team := e.home_team
    away_team := e.away_team }

/-- The fact row emitted for outcome `o` of market `m` of bookmaker `b` of
event `e` (defaults are only reached on structures that would have raised
KeyError). -/
def mkRowE (e : RawEvent) (b : RawBookmaker) (m : RawMarket) (o : RawOutcome) : OddsRow :=
  { event_id := e.id.getD ""
    bookmaker_key := b.key.getD ""
    market_key := m.key.getD ""
    outcome_name := o.name
    is_home_team := isHomeTeam o.name e.home_team e.away_team
    price_american := o.price
    line_point := o.point
    event_commence_utc := e.commence_time
    market_last_update := match m.last_update with
      | some s => some s
      | none => b.last_update }

/-- All fact rows of the batch as one comprehension over the nesting. -/
def oddsRowsOf (es : List RawEvent) : List OddsRow :=
  es.flatMap (fun e => (e.bookmakers.getD []).flatMap (fun b =>
    (b.markets.getD []).flatMap (fun m =>
      (m.outcomes.getD []).map (mkRowE e b m))))

/-- All bookmaker occurrences of the batch in traversal order. -/
def bookOccurrences (es : List RawEvent) : List RawBookmaker :=
  es.flatMap (fun e => e.bookmakers.getD [])

/-- Total number of outcome structures across all (event, bookmaker, market)
triples of the batch. -/
def totalOutcomes (es : List RawEvent) : Nat :=
  (es.map (fun e =>
    ((e.bookmakers.getD []).map (fun b =>
      ((b.markets.getD []).map (fun m => (m.outcomes.getD []).length)).sum)).sum)).sum

/-- The last element of a list satisfying a predicate, if any. -/
def lastSuchThat (p : α → Bool) : List α → Option α
  | [] => none
  | x :: xs =>
    match lastSuchThat p xs with
    | some y => some y
    | none => if p x then some x else none

/-- Every event carries `id` and `sport_key`, every bookmaker and every market
carries `key`: exactly the four fields whose absence raises KeyError. -/
def allRequiredPresent (es : List RawEvent) : Bool :=
  es.all (fun e => e.id.isSome && e.sport_key.isSome &&
    (e.bookmakers.getD []).all (fun b => b.key.isSome &&
      (b.markets.getD []).all (fun m => m.key.isSome)))

/-! ## Dictionary lemmas -/

theorem dictLookup_insert (k k' : String) (v : α) (d : List (String × α)) :
    dictLookup k' (dictInsert k v d) = if k = k' then some v else dictLookup k' d := by
  induction d with
  | nil => by_cases h : k = k' <;> simp [dictInsert, dictLookup, h]
  | cons p d ih =>
    obtain ⟨a, b⟩ := p
    by_cases hak : a = k
    · subst hak
      by_cases h : a = k' <;> simp [dictInsert, dictLookup, h]
    · by_cases h : a = k'
      · subst h
        have hk : ¬ k = a := fun hc => hak hc.symm
        simp [dictInsert, dictLookup, hak, hk]
      · simp [dictInsert, dictLookup, hak, h, ih]

theorem mem_dictKeys_iff_lookup (k : String) (d : List (String × α)) :
    k ∈ dictKeys d ↔ dictLookup k d ≠ none := by
  induction d with
  | nil => simp [dictKeys, dictLookup]
  | cons p d ih =>
    obtain ⟨a, b⟩ := p
    by_cases h : a = k
    · subst h; simp [dictKeys, dictLookup]
    · have h' : ¬ k = a := fun hc => h hc.symm
      have hmem : k ∈ dictKeys ((a, b) :: d) ↔ k ∈ dictKeys d := by
        simp [dictKeys, h']
      rw [hmem, ih]
      simp [dictLookup, h]

theorem mem_dictKeys_insert (k k' : String) (v : α) (d : List (String × α)) :
    k' ∈ dictKeys (dictInsert k v d) ↔ k' = k ∨ k' ∈ dictKeys d := by
  rw [mem_dictKeys_iff_lookup, dictLookup_insert, mem_dictKeys_iff_lookup]
  by_cases h : k = k' <;> simp [h, eq_comm]

theorem nodup_dictKeys_insert (k : String) (v : α) (d : List (String × α))
    (h : (dictKeys d).Nodup) : (dictKeys (dictInsert k v d)).Nodup := by
  induction d with
  | nil => simp [dictInsert, dictKeys]
  | cons p d ih =>
    obtain ⟨a, b⟩ := p
    simp only [dictKeys, List.map_cons, List.nodup_cons] at h
    by_cases hak : a = k
    · subst hak
      simpa [dictInsert, dictKeys, List.nodup_cons] using h
    · simp only [dictInsert, hak, if_false, dictKeys, List.map_cons, List.nodup_cons]
      refine ⟨?_, ih h.2⟩
      intro hc
      rcases (mem_dictKeys_insert k a v d).mp hc with h1 | h2
      · exact hak h1
      · exact h.1 h2

theorem dict_inv_insert (P : α → String) (k : String) (v : α) (d : List (String × α))
    (hinv : ∀ p ∈ d, P p.2 = p.1) (hv : P v = k) :
    ∀ p ∈ dictInsert k v d, P p.2 = p.1 := by
  induction d with
  | nil => simpa [dictInsert] using hv
  | cons q d ih =>
    obtain ⟨a, b⟩ := q
    by_cases hak : a = k
    · subst hak
      intro p hp
      simp only [dictInsert, if_true] at hp
      rcases List.mem_cons.mp hp with h1 | h2
      · subst h1; exact hv
      · exact hinv p (List.mem_cons_of_mem _ h2)
    · intro p hp
      simp only [dictInsert, hak, if_false] at hp
      rcases List.mem_cons.mp hp with h1 | h2
      · subst h1; exact hinv (a, b) (List.mem_cons_self _ _)
      · exact ih (fun q hq => hinv q (List.mem_cons_of_mem _ hq)) p h2

theorem find?_dictValues (P : α → String) (k : String) (d : List (String × α))
    (hinv : ∀ p ∈ d, P p.2 = p.1) :
    (dictValues d).find? (fun v => decide (P v = k)) = dictLookup k d := by
  induction d with
  | nil => simp [dictValues, dictLookup]
  | cons p d ih =>
    obtain ⟨a, b⟩ := p
    have hb : P b = a := hinv (a, b) (List.mem_cons_self _ _)
    have hrest := ih (fun q hq => hinv q (List.mem_cons_of_mem _ hq))
    by_cases h : a = k
    · simp [dictValues, dictLookup, List.find?_cons, hb, h]
    · simpa [dictValues, dictLookup, List.find?_cons, hb, h] using hrest

theorem map_dictValues_eq_dictKeys (P : α → String) (d : List (String × α))
    (hinv : ∀ p ∈ d, P p.2 = p.1) :
    (dictValues d).map P = dictKeys d := by
  induction d with
  | nil => simp [dictValues, dictKeys]
  | cons p d ih =>
    obtain ⟨a, b⟩ := p
    have hb : P b = a := hinv (a, b) (List.mem_cons_self _ _)
    have hrest := ih (fun q hq => hinv q (List.mem_cons_of_mem _ hq))
    simp only [dictValues, dictKeys, List.map_cons, hb] at hrest ⊢
    rw [hrest]

/-! ## lastSuchThat lemmas -/

theorem lastSuchThat_mem (p : α → Bool) (l : List α) (y : α)
    (h : lastSuchThat p l = some y) : y ∈ l ∧ p y = true := by
  induction l with
  | nil => simp [lastSuchThat] at h
  | cons x xs ih =>
    simp only [lastSuchThat] at h
    cases hx : lastSuchThat p xs with
    | some z =>
      rw [hx] at h
      simp only [Option.some.injEq] at h
      subst h
      have := ih hx
      exact ⟨List.mem_cons_of_mem _ this.1, this.2⟩
    | none =>
      rw [hx] at h
      by_cases hpx : p x = true
      · simp only [hpx, if_true, Option.some.injEq] at h
        subst h
        exact ⟨List.mem_cons_self _ _, hpx⟩
      · simp [hpx] at h

theorem lastSuchThat_append (p : α → Bool) (l1 l2 : List α) :
    lastSuchThat p (l1 ++ l2) =
      match lastSuchThat p l2 with
      | some y => some y
      | none => lastSuchThat p l1 := by
  induction l1 with
  | nil =>
    simp only [List.nil_append, lastSuchThat]
    cases lastSuchThat p l2 <;> rfl
  | cons x xs ih =>
    simp only [List.cons_append, lastSuchThat, List.append_eq]
    rw [ih]
    cases lastSuchThat p l2 <;> cases lastSuchThat p xs <;> simp [lastSuchThat]

theorem lastSuchThat_eq_none_iff (p : α → Bool) (l : List α) :
    lastSuchThat p l = none ↔ ∀ x ∈ l, p x = false := by
  induction l with
  | nil => simp [lastSuchThat]
  | cons x xs ih =>
    simp only [lastSuchThat]
    cases h : lastSuchThat p xs with
    | some y =>
      constructor
      · intro hc; cases hc
      · intro hall
        obtain ⟨hy, hpy⟩ := lastSuchThat_mem p xs y h
        rw [hall y (List.mem_cons_of_mem _ hy)] at hpy
        cases hpy
    | none =>
      by_cases hx : p x = true
      · simp only [hx, if_true]
        constructor
        · intro hc; cases hc
        · intro hall
          rw [hall x (List.mem_cons_self _ _)] at hx
          cases hx
      · simp only [hx, if_false]
        constructor
        · intro _ z hz
          rcases List.mem_cons.mp hz with h1 | h2
          · subst h1; exact Bool.not_eq_true _ ▸ Bool.of_not_eq_true hx
          · exact ih.mp h z h2
        · intro _; rfl

/-! ## Traversal lemmas -/

/-- The fact row emitted for outcome `o` of market `m`, given the enclosing
scalars as the loop sees them. -/
def mkRowS (event_id bookmaker_key : String)
    (commence_time home_team away_team bookmaker_last_update : Option String)
    (m : RawMarket) (o : RawOutcome) : OddsRow :=
  { event_id := event_id
    bookmaker_key := bookmaker_key
    market_key := m.key.getD ""
    outcome_name := o.name
    is_home_team := isHomeTeam o.name home_team away_team
    price_american := o.price
    line_point := o.point
    event_commence_utc := commence_time
    market_last_update := match m.last_update with
      | some s => some s
      | none => bookmaker_last_update }

theorem flattenMarket_ok_rows (eid bkey : String) (ct ht aw blu : Option String)
    (m : RawMarket) (rows : List OddsRow)
    (h : flattenMarket eid bkey ct ht aw blu m = .ok rows) :
    rows = (m.outcomes.getD []).map (mkRowS eid bkey ct ht aw blu m) := by
  cases hk : m.key with
  | none => simp [flattenMarket, hk] at h
  | some mk =>
    simp only [flattenMarket, hk, Except.ok.injEq] at h
    subst h
    simp [mkRowS, hk]

theorem flattenMarkets_ok_rows (eid bkey : String) (ct ht aw blu : Option String)
    (ms : List RawMarket) (rows : List OddsRow)
    (h : flattenMarkets eid bkey ct ht aw blu ms = .ok rows) :
    rows = ms.flatMap (fun m => (m.outcomes.getD []).map (mkRowS eid bkey ct ht aw blu m)) := by
  induction ms generalizing rows with
  | nil =>
    simp only [flattenMarkets, Except.ok.injEq] at h
    subst h; simp
  | cons m ms ih =>
    simp only [flattenMarkets] at h
    cases h1 : flattenMarket eid bkey ct ht aw blu m with
    | error e => rw [h1] at h; cases h
    | ok rows1 =>
      rw [h1] at h
      cases h2 : flattenMarkets eid bkey ct ht aw blu ms with
      | error e => rw [h2] at h; cases h
      | ok rows2 =>
        rw [h2] at h
        simp only [Except.ok.injEq] at h
        subst h
        rw [List.flatMap_cons, flattenMarket_ok_rows eid bkey ct ht aw blu m rows1 h1, ih rows2 h2]

theorem flattenBooks_ok_rows (eid : String) (ct ht aw : Option String)
    (bs : List RawBookmaker) (bd bd' : List (String × BookmakerRecord)) (rows : List OddsRow)
    (h : flattenBooks eid ct ht aw bs bd = .ok (rows, bd')) :
    rows = bs.flatMap (fun b => (b.markets.getD []).flatMap
      (fun m => (m.outcomes.getD []).map (mkRowS eid (b.key.getD "") ct ht aw b.last_update m))) := by
  induction bs generalizing bd rows bd' with
  | nil =>
    simp only [flattenBooks, Except.ok.injEq, Prod.mk.injEq] at h
    obtain ⟨h1, _⟩ := h
    subst h1; simp
  | cons b bs ih =>
    cases hk : b.key with
    | none => simp [flattenBooks, hk] at h
    | some bkey =>
      simp only [flattenBooks, hk] at h
      cases h1 : flattenMarkets eid bkey ct ht aw b.last_update (b.markets.getD []) with
      | error e => rw [h1] at h; cases h
      | ok rows1 =>
        rw [h1] at h
        cases h2 : flattenBooks eid ct ht aw bs
            (dictInsert bkey { bookmaker_key := bkey, bookmaker_title := b.title } bd) with
        | error e => rw [h2] at h; cases h
        | ok pr =>
          obtain ⟨rows2, bd2⟩ := pr
          rw [h2] at h
          simp only [Except.ok.injEq, Prod.mk.injEq] at h
          obtain ⟨hr, hb2⟩ := h
          subst hr
          rw [List.flatMap_cons, flattenMarkets_ok_rows eid bkey ct ht aw b.last_update _ rows1 h1,
            ih _ _ rows2 h2, hk]
          simp

theorem flattenBooks_ok_dict (eid : String) (ct ht aw : Option String)
    (bs : List RawBookmaker) (bd bd' : List (String × BookmakerRecord)) (rows : List OddsRow)
    (h : flattenBooks eid ct ht aw bs bd = .ok (rows, bd')) (k : String) :
    dictLookup k bd' =
      match lastSuchThat (fun b => decide (b.key = some k)) bs with
      | some b => some { bookmaker_key := k, bookmaker_title := b.title }
      | none => dictLookup k bd := by
  induction bs generalizing bd rows bd' with
  | nil =>
    simp only [flattenBooks, Except.ok.injEq, Prod.mk.injEq] at h
    obtain ⟨_, h2⟩ := h
    subst h2; simp [lastSuchThat]
  | cons b bs ih =>
    cases hk : b.key with
    | none => simp [flattenBooks, hk] at h
    | some bkey =>
      simp only [flattenBooks, hk] at h
      cases h1 : flattenMarkets eid bkey ct ht aw b.last_update (b.markets.getD []) with
      | error e => rw [h1] at h; cases h
      | ok rows1 =>
        rw [h1] at h
        cases h2 : flattenBooks eid ct ht aw bs
            (dictInsert bkey { bookmaker_key := bkey, bookmaker_title := b.title } bd) with
        | error e => rw [h2] at h; cases h
        | ok pr =>
          obtain ⟨rows2, bd2⟩ := pr
          rw [h2] at h
          simp only [Except.ok.injEq, Prod.mk.injEq] at h
          obtain ⟨_, hb2⟩ := h
          subst hb2
          have hd := ih _ _ rows2 h2
          simp only [lastSuchThat]
          cases hlast : lastSuchThat (fun b => decide (b.key = some k)) bs with
          | some b' =>
            rw [hlast] at hd
            exact hd
          | none =>
            rw [hlast] at hd
            rw [hd, dictLookup_insert]
            by_cases hbk : bkey = k
            · subst hbk; simp [hk]
            · have : ¬ (b.key = some k) := by rw [hk]; simp [hbk]
              simp [this, hbk]

theorem flattenBooks_ok_nodup (eid : String) (ct ht aw : Option String)
    (bs : List RawBookmaker) (bd bd' : List (String × BookmakerRecord)) (rows : List OddsRow)
    (h : flattenBooks eid ct ht aw bs bd = .ok (rows, bd'))
    (hn : (dictKeys bd).Nodup) : (dictKeys bd').Nodup := by
  induction bs generalizing bd rows bd' with
  | nil =>
    simp only [flattenBooks, Except.ok.injEq, Prod.mk.injEq] at h
    obtain ⟨_, h2⟩ := h
    subst h2; exact hn
  | cons b bs ih =>
    cases hk : b.key with
    | none => simp [flattenBooks, hk] at h
    | some bkey =>
      simp only [flattenBooks, hk] at h
      cases h1 : flattenMarkets eid bkey ct ht aw b.last_update (b.markets.getD []) with
      | error e => rw [h1] at h; cases h
      | ok rows1 =>
        rw [h1] at h
        cases h2 : flattenBooks eid ct ht aw bs
            (dictInsert bkey { bookmaker_key := bkey, bookmaker_title := b.title } bd) with
        | error e => rw [h2] at h; cases h
        | ok pr =>
          obtain ⟨rows2, bd2⟩ := pr
          rw [h2] at h
          simp only [Except.ok.injEq, Prod.mk.injEq] at h
          obtain ⟨_, hb2⟩ := h
          subst hb2
          exact ih _ _ rows2 h2 (nodup_dictKeys_insert _ _ _ hn)

theorem flattenBooks_ok_inv (eid : String) (ct ht aw : Option String)
    (bs : List RawBookmaker) (bd bd' : List (String × BookmakerRecord)) (rows : List OddsRow)
    (h : flattenBooks eid ct ht aw bs bd = .ok (rows, bd'))
    (hinv : ∀ p ∈ bd, p.2.bookmaker_key = p.1) :
    ∀ p ∈ bd', p.2.bookmaker_key = p.1 := by
  induction bs generalizing bd rows bd' with
  | nil =>
    simp only [flattenBooks, Except.ok.injEq, Prod.mk.injEq] at h
    obtain ⟨_, h2⟩ := h
    subst h2; exact hinv
  | cons b bs ih =>
    cases hk : b.key with
    | none => simp [flattenBooks, hk] at h
    | some bkey =>
      simp only [flattenBooks, hk] at h
      cases h1 : flattenMarkets eid bkey ct ht aw b.last_update (b.markets.getD []) with
      | error e => rw [h1] at h; cases h
      | ok rows1 =>
        rw [h1] at h
        cases h2 : flattenBooks eid ct ht aw bs
            (dictInsert bkey { bookmaker_key := bkey, bookmaker_title := b.title } bd) with
        | error e => rw [h2] at h; cases h
        | ok pr =>
          obtain ⟨rows2, bd2⟩ := pr
          rw [h2] at h
          simp only [Except.ok.injEq, Prod.mk.injEq] at h
          obtain ⟨_, hb2⟩ := h
          subst hb2
          exact ih _ _ rows2 h2 (dict_inv_insert _ _ _ _ hinv rfl)

theorem flattenMarkets_ok_required (eid bkey : String) (ct ht aw blu : Option String)
    (ms : List RawMarket) (rows : List OddsRow)
    (h : flattenMarkets eid bkey ct ht aw blu ms = .ok rows) :
    ms.all (fun m => m.key.isSome) = true := by
  induction ms generalizing rows with
  | nil => simp
  | cons m ms ih =>
    simp only [flattenMarkets] at h
    cases h1 : flattenMarket eid bkey ct ht aw blu m with
    | error e => rw [h1] at h; cases h
    | ok rows1 =>
      rw [h1] at h
      cases h2 : flattenMarkets eid bkey ct ht aw blu ms with
      | error e => rw [h2] at h; cases h
      | ok rows2 =>
        have hm : m.key.isSome = true := by
          cases hk : m.key with
          | none => simp [flattenMarket, hk] at h1
          | some mk => simp
        simp [hm, ih rows2 h2]

theorem flattenMarkets_ok_of_required (eid bkey : String) (ct ht aw blu : Option String)
    (ms : List RawMarket) (hreq : ms.all (fun m => m.key.isSome) = true) :
    ∃ rows, flattenMarkets eid bkey ct ht aw blu ms = .ok rows := by
  induction ms with
  | nil => exact ⟨[], rfl⟩
  | cons m ms ih =>
    simp only [List.all_cons, Bool.and_eq_true] at hreq
    obtain ⟨hm, hms⟩ := hreq
    obtain ⟨mk, hk⟩ := Option.isSome_iff_exists.mp hm
    obtain ⟨rest, hrest⟩ := ih hms
    refine ⟨(m.outcomes.getD []).map (mkRowS eid bkey ct ht aw blu m) ++ rest, ?_⟩
    simp only [flattenMarkets, flattenMarket, hk, hrest]
    simp [mkRowS, hk]

theorem flattenBooks_ok_required (eid : String) (ct ht aw : Option String)
    (bs : List RawBookmaker) (bd bd' : List (String × BookmakerRecord)) (rows : List OddsRow)
    (h : flattenBooks eid ct ht aw bs bd = .ok (rows, bd')) :
    bs.all (fun b => b.key.isSome &&
      (b.markets.getD []).all (fun m => m.key.isSome)) = true := by
  induction bs generalizing bd rows bd' with
  | nil => simp
  | cons b bs ih =>
    cases hk : b.key with
    | none => simp [flattenBooks, hk] at h
    | some bkey =>
      simp only [flattenBooks, hk] at h
      cases h1 : flattenMarkets eid bkey ct ht aw b.last_update (b.markets.getD []) with
      | error e => rw [h1] at h; cases h
      | ok rows1 =>
        rw [h1] at h
        cases h2 : flattenBooks eid ct ht aw bs
            (dictInsert bkey { bookmaker_key := bkey, bookmaker_title := b.title } bd) with
        | error e => rw [h2] at h; cases h
        | ok pr =>
          obtain ⟨rows2, bd2⟩ := pr
          simp [hk, flattenMarkets_ok_required _ _ _ _ _ _ _ _ h1, ih _ _ rows2 h2]

theorem flattenBooks_ok_of_required (eid : String) (ct ht aw : Option String)
    (bs : List RawBookmaker) (bd : List (String × BookmakerRecord))
    (hreq : bs.all (fun b => b.key.isSome &&
      (b.markets.getD []).all (fun m => m.key.isSome)) = true) :
    ∃ rows bd', flattenBooks eid ct ht aw bs bd = .ok (rows, bd') := by
  induction bs generalizing bd with
  | nil => exact ⟨[], bd, rfl⟩
  | cons b bs ih =>
    simp only [List.all_cons, Bool.and_eq_true] at hreq
    obtain ⟨⟨hb, hms⟩, hbs⟩ := hreq
    obtain ⟨bkey, hk⟩ := Option.isSome_iff_exists.mp hb
    obtain ⟨rows1, h1⟩ := flattenMarkets_ok_of_required eid bkey ct ht aw b.last_update _ hms
    obtain ⟨rows2, bd2, h2⟩ := ih
      (dictInsert bkey { bookmaker_key := bkey, bookmaker_title := b.title } bd)
      (by simpa using hbs)
    refine ⟨rows1 ++ rows2, bd2, ?_⟩
    simp only [flattenBooks, hk, h1, h2]

theorem flattenMarkets_error_shape (eid bkey : String) (ct ht aw blu : Option String)
    (ms : List RawMarket) (err : PyError)
    (h : flattenMarkets eid bkey ct ht aw blu ms = .error err) :
    ∃ k, err = .keyError k := by
  induction ms generalizing err with
  | nil => simp [flattenMarkets] at h
  | cons m ms ih =>
    simp only [flattenMarkets] at h
    cases h1 : flattenMarket eid bkey ct ht aw blu m with
    | error e =>
      rw [h1] at h
      cases h
      cases hk : m.key with
      | none =>
        simp only [flattenMarket, hk, Except.error.injEq] at h1
        exact ⟨"key", h1.symm⟩
      | some mk => simp [flattenMarket, hk] at h1
    | ok rows1 =>
      rw [h1] at h
      cases h2 : flattenMarkets eid bkey ct ht aw blu ms with
      | error e => rw [h2] at h; cases h; exact ih _ h2
      | ok rows2 => rw [h2] at h; cases h

theorem flattenBooks_error_shape (eid : String) (ct ht aw : Option String)
    (bs : List RawBookmaker) (bd : List (String × BookmakerRecord)) (err : PyError)
    (h : flattenBooks eid ct ht aw bs bd = .error err) :
    ∃ k, err = .keyError k := by
  induction bs generalizing bd err with
  | nil => simp [flattenBooks] at h
  | cons b bs ih =>
    cases hk : b.key with
    | none =>
      simp only [flattenBooks, hk, Except.error.injEq] at h
      exact ⟨"key", h.symm⟩
    | some bkey =>
      simp only [flattenBooks, hk] at h
      cases h1 : flattenMarkets eid bkey ct ht aw b.last_update (b.markets.getD []) with
      | error e =>
        rw [h1] at h; cases h
        exact flattenMarkets_error_shape _ _ _ _ _ _ _ _ h1
      | ok rows1 =>
        rw [h1] at h
        cases h2 : flattenBooks eid ct ht aw bs
            (dictInsert bkey { bookmaker_key := bkey, bookmaker_title := b.title } bd) with
        | error e => rw [h2] at h; cases h; exact ih _ _ h2
        | ok pr => rw [h2] at h; cases h

theorem mkRowS_eq_mkRowE (e : RawEvent) (b : RawBookmaker) (m : RawMarket) (o : RawOutcome) :
    mkRowS (e.id.getD "") (b.key.getD "") e.commence_time e.home_team e.away_team
      b.last_update m o = mkRowE e b m o := by
  simp [mkRowS, mkRowE]

theorem flattenEvents_ok_rows (es : List RawEvent)
    (ed ed' : List (String × EventRow)) (bd bd' : List (String × BookmakerRecord))
    (rows : List OddsRow)
    (h : flattenEvents es ed bd = .ok (rows, ed', bd')) :
    rows = oddsRowsOf es := by
  induction es generalizing ed bd rows ed' bd' with
  | nil =>
    simp only [flattenEvents, Except.ok.injEq, Prod.mk.injEq] at h
    obtain ⟨h1, _⟩ := h
    subst h1; simp [oddsRowsOf]
  | cons e es ih =>
    cases hid : e.id with
    | none => simp [flattenEvents, hid] at h
    | some event_id =>
      cases hsk : e.sport_key with
      | none => simp [flattenEvents, hid, hsk] at h
      | some sport_key =>
        simp only [flattenEvents, hid, hsk] at h
        cases h1 : flattenBooks event_id e.commence_time e.home_team e.away_team
            (e.bookmakers.getD []) bd with
        | error err => rw [h1] at h; cases h
        | ok pr =>
          obtain ⟨rows1, bd1⟩ := pr
          simp only [h1] at h
          cases h2 : flattenEvents es
              (dictInsert event_id
                { event_id := event_id, sport_key := sport_key,
                  sport_title := e.sport_title, commence_time_utc := e.commence_time,
                  home_team := e.home_team, away_team := e.away_team } ed) bd1 with
          | error err => rw [h2] at h; cases h
          | ok tr =>
            obtain ⟨rows2, ed2, bd2⟩ := tr
            rw [h2] at h
            simp only [Except.ok.injEq, Prod.mk.injEq] at h
            obtain ⟨hr, _, _⟩ := h
            subst hr
            have hb := flattenBooks_ok_rows event_id e.commence_time e.home_team
              e.away_team _ bd bd1 rows1 h1
            have he2 := ih _ _ _ _ rows2 h2
            have hfun : ∀ (b : RawBookmaker) (m : RawMarket),
                mkRowS event_id (b.key.getD "") e.commence_time e.home_team e.away_team
                  b.last_update m = mkRowE e b m := by
              intro b m
              funext o
              have heid : event_id = e.id.getD "" := by rw [hid]; rfl
              rw [heid, mkRowS_eq_mkRowE]
            rw [hb, he2]
            simp only [oddsRowsOf, List.flatMap_cons, hfun]

theorem flattenEvents_ok_edict (es : List RawEvent)
    (ed ed' : List (String × EventRow)) (bd bd' : List (String × BookmakerRecord))
    (rows : List OddsRow)
    (h : flattenEvents es ed bd = .ok (rows, ed', bd')) (k : String) :
    dictLookup k ed' =
      match lastSuchThat (fun e => decide (e.id = some k)) es with
      | some e => some (eventRowOf e)
      | none => dictLookup k ed := by
  induction es generalizing ed bd rows ed' bd' with
  | nil =>
    simp only [flattenEvents, Except.ok.injEq, Prod.mk.injEq] at h
    obtain ⟨_, h2, _⟩ := h
    subst h2; simp [lastSuchThat]
  | cons e es ih =>
    cases hid : e.id with
    | none => simp [flattenEvents, hid] at h
    | some event_id =>
      cases hsk : e.sport_key with
      | none => simp [flattenEvents, hid, hsk] at h
      | some sport_key =>
        simp only [flattenEvents, hid, hsk] at h
        cases h1 : flattenBooks event_id e.commence_time e.home_team e.away_team
            (e.bookmakers.getD []) bd with
        | error err => rw [h1] at h; cases h
        | ok pr =>
          obtain ⟨rows1, bd1⟩ := pr
          simp only [h1] at h
          cases h2 : flattenEvents es
              (dictInsert event_id
                { event_id := event_id, sport_key := sport_key,
                  sport_title := e.sport_title, commence_time_utc := e.commence_time,
                  home_team := e.home_team, away_team := e.away_team } ed) bd1 with
          | error err => rw [h2] at h; cases h
          | ok tr =>
            obtain ⟨rows2, ed2, bd2⟩ := tr
            rw [h2] at h
            simp only [Except.ok.injEq, Prod.mk.injEq] at h
            obtain ⟨_, hed, _⟩ := h
            subst hed
            have hd := ih _ _ _ _ rows2 h2
            simp only [lastSuchThat]
            cases hlast : lastSuchThat (fun e => decide (e.id = some k)) es with
            | some e' =>
              rw [hlast] at hd
              exact hd
            | none =>
              rw [hlast] at hd
              rw [hd, dictLookup_insert]
              by_cases hek : event_id = k
              · subst hek
                simp [hid, eventRowOf, hsk]
              · have hne : ¬ (e.id = some k) := by rw [hid]; simp [hek]
                simp [hne, hek]

theorem flattenEvents_ok_bdict (es : List RawEvent)
    (ed ed' : List (String × EventRow)) (bd bd' : List (String × BookmakerRecord))
    (rows : List OddsRow)
    (h : flattenEvents es ed bd = .ok (rows, ed', bd')) (k : String) :
    dictLookup k bd' =
      match lastSuchThat (fun b => decide (b.key = some k)) (bookOccurrences es) with
      | some b => some { bookmaker_key := k, bookmaker_title := b.title }
      | none => dictLookup k bd := by
  induction es generalizing ed bd rows ed' bd' with
  | nil =>
    simp only [flattenEvents, Except.ok.injEq, Prod.mk.injEq] at h
    obtain ⟨_, _, h3⟩ := h
    subst h3; simp [bookOccurrences, lastSuchThat]
  | cons e es ih =>
    cases hid : e.id with
    | none => simp [flattenEvents, hid] at h
    | some event_id =>
      cases hsk : e.sport_key with
      | none => simp [flattenEvents, hid, hsk] at h
      | some sport_key =>
        simp only [flattenEvents, hid, hsk] at h
        cases h1 : flattenBooks event_id e.commence_time e.home_team e.away_team
            (e.bookmakers.getD []) bd with
        | error err => rw [h1] at h; cases h
        | ok pr =>
          obtain ⟨rows1, bd1⟩ := pr
          simp only [h1] at h
          cases h2 : flattenEvents es
              (dictInsert event_id
                { event_id := event_id, sport_key := sport_key,
                  sport_title := e.sport_title, commence_time_utc := e.commence_time,
                  home_team := e.home_team, away_team := e.away_team } ed) bd1 with
          | error err => rw [h2] at h; cases h
          | ok tr =>
            obtain ⟨rows2, ed2, bd2⟩ := tr
            rw [h2] at h
            simp only [Except.ok.injEq, Prod.mk.injEq] at h
            obtain ⟨_, _, hbd⟩ := h
            subst hbd
            have hd1 := flattenBooks_ok_dict event_id e.commence_time e.home_team
              e.away_team _ bd bd1 rows1 h1 k
            have hd2 := ih _ _ _ _ rows2 h2
            have hocc : bookOccurrences (e :: es) =
                e.bookmakers.getD [] ++ bookOccurrences es := by
              simp [bookOccurrences]
            rw [hocc, lastSuchThat_append]
            cases hlast2 : lastSuchThat (fun b => decide (b.key = some k))
                (bookOccurrences es) with
            | some b' =>
              rw [hlast2] at hd2
              exact hd2
            | none =>
              rw [hlast2] at hd2
              rw [hd2, hd1]

theorem flattenEvents_ok_nodupE (es : List RawEvent)
    (ed ed' : List (String × EventRow)) (bd bd' : List (String × BookmakerRecord))
    (rows : List OddsRow)
    (h : flattenEvents es ed bd = .ok (rows, ed', bd'))
    (hn : (dictKeys ed).Nodup) : (dictKeys ed').Nodup := by
  induction es generalizing ed bd rows ed' bd' with
  | nil =>
    simp only [flattenEvents, Except.ok.injEq, Prod.mk.injEq] at h
    obtain ⟨_, h2, _⟩ := h
    subst h2; exact hn
  | cons e es ih =>
    cases hid : e.id with
    | none => simp [flattenEvents, hid] at h
    | some event_id =>
      cases hsk : e.sport_key with
      | none => simp [flattenEvents, hid, hsk] at h
      | some sport_key =>
        simp only [flattenEvents, hid, hsk] at h
        cases h1 : flattenBooks event_id e.commence_time e.home_team e.away_team
            (e.bookmakers.getD []) bd with
        | error err => rw [h1] at h; cases h
        | ok pr =>
          obtain ⟨rows1, bd1⟩ := pr
          simp only [h1] at h
          cases h2 : flattenEvents es
              (dictInsert event_id
                { event_id := event_id, sport_key := sport_key,
                  sport_title := e.sport_title, commence_time_utc := e.commence_time,
                  home_team := e.home_team, away_team := e.away_team } ed) bd1 with
          | error err => rw [h2] at h; cases h
          | ok tr =>
            obtain ⟨rows2, ed2, bd2⟩ := tr
            rw [h2] at h
            simp only [Except.ok.injEq, Prod.mk.injEq] at h
            obtain ⟨_, hed, _⟩ := h
            subst hed
            exact ih _ _ _ _ rows2 h2 (nodup_dictKeys_insert _ _ _ hn)

theorem flattenEvents_ok_nodupB (es : List RawEvent)
    (ed ed' : List (String × EventRow)) (bd bd' : List (String × BookmakerRecord))
    (rows : List OddsRow)
    (h : flattenEvents es ed bd = .ok (rows, ed', bd'))
    (hn : (dictKeys bd).Nodup) : (dictKeys bd').Nodup := by
  induction es generalizing ed bd rows ed' bd' with
  | nil =>
    simp only [flattenEvents, Except.ok.injEq, Prod.mk.injEq] at h
    obtain ⟨_, _, h3⟩ := h
    subst h3; exact hn
  | cons e es ih =>
    cases hid : e.id with
    | none => simp [flattenEvents, hid] at h
    | some event_id =>
      cases hsk : e.sport_key with
      | none => simp [flattenEvents, hid, hsk] at h
      | some sport_key =>
        simp only [flattenEvents, hid, hsk] at h
        cases h1 : flattenBooks event_id e.commence_time e.home_team e.away_team
            (e.bookmakers.getD []) bd with
        | error err => rw [h1] at h; cases h
        | ok pr =>
          obtain ⟨rows1, bd1⟩ := pr
          simp only [h1] at h
          cases h2 : flattenEvents es
              (dictInsert event_id
                { event_id := event_id, sport_key := sport_key,
                  sport_title := e.sport_title, commence_time_utc := e.commence_time,
                  home_team := e.home_team, away_team := e.away_team } ed) bd1 with
          | error err => rw [h2] at h; cases h
          | ok tr =>
            obtain ⟨rows2, ed2, bd2⟩ := tr
            rw [h2] at h
            simp only [Except.ok.injEq, Prod.mk.injEq] at h
            obtain ⟨_, _, hbd⟩ := h
            subst hbd
            exact ih _ _ _ _ rows2 h2
              (flattenBooks_ok_nodup _ _ _ _ _ _ _ _ h1 hn)

theorem flattenEvents_ok_invE (es : List RawEvent)
    (ed ed' : List (String × EventRow)) (bd bd' : List (String × BookmakerRecord))
    (rows : List OddsRow)
    (h : flattenEvents es ed bd = .ok (rows, ed', bd'))
    (hinv : ∀ p ∈ ed, p.2.event_id = p.1) :
    ∀ p ∈ ed', p.2.event_id = p.1 := by
  induction es generalizing ed bd rows ed' bd' with
  | nil =>
    simp only [flattenEvents, Except.ok.injEq, Prod.mk.injEq] at h
    obtain ⟨_, h2, _⟩ := h
    subst h2; exact hinv
  | cons e es ih =>
    cases hid : e.id with
    | none => simp [flattenEvents, hid] at h
    | some event_id =>
      cases hsk : e.sport_key with
      | none => simp [flattenEvents, hid, hsk] at h
      | some sport_key =>
        simp only [flattenEvents, hid, hsk] at h
        cases h1 : flattenBooks event_id e.commence_time e.home_team e.away_team
            (e.bookmakers.getD []) bd with
        | error err => rw [h1] at h; cases h
        | ok pr =>
          obtain ⟨rows1, bd1⟩ := pr
          simp only [h1] at h
          cases h2 : flattenEvents es
              (dictInsert event_id
                { event_id := event_id, sport_key := sport_key,
                  sport_title := e.sport_title, commence_time_utc := e.commence_time,
                  home_team := e.home_team, away_team := e.away_team } ed) bd1 with
          | error err => rw [h2] at h; cases h
          | ok tr =>
            obtain ⟨rows2, ed2, bd2⟩ := tr
            rw [h2] at h
            simp only [Except.ok.injEq, Prod.mk.injEq] at h
            obtain ⟨_, hed, _⟩ := h
            subst hed
            exact ih _ _ _ _ rows2 h2 (dict_inv_insert _ _ _ _ hinv rfl)

theorem flattenEvents_ok_invB (es : List RawEvent)
    (ed ed' : List (String × EventRow)) (bd bd' : List (String × BookmakerRecord))
    (rows : List OddsRow)
    (h : flattenEvents es ed bd = .ok (rows, ed', bd'))
    (hinv : ∀ p ∈ bd, p.2.bookmaker_key = p.1) :
    ∀ p ∈ bd', p.2.bookmaker_key = p.1 := by
  induction es generalizing ed bd rows ed' bd' with
  | nil =>
    simp only [flattenEvents, Except.ok.injEq, Prod.mk.injEq] at h
    obtain ⟨_, _, h3⟩ := h
    subst h3; exact hinv
  | cons e es ih =>
    cases hid : e.id with
    | none => simp [flattenEvents, hid] at h
    | some event_id =>
      cases hsk : e.sport_key with
      | none => simp [flattenEvents, hid, hsk] at h
      | some sport_key =>
        simp only [flattenEvents, hid, hsk] at h
        cases h1 : flattenBooks event_id e.commence_time e.home_team e.away_team
            (e.bookmakers.getD []) bd with
        | error err => rw [h1] at h; cases h
        | ok pr =>
          obtain ⟨rows1, bd1⟩ := pr
          simp only [h1] at h
          cases h2 : flattenEvents es
              (dictInsert event_id
                { event_id := event_id, sport_key := sport_key,
                  sport_title := e.sport_title, commence_time_utc := e.commence_time,
                  home_team := e.home_team, away_team := e.away_team } ed) bd1 with
          | error err => rw [h2] at h; cases h
          | ok tr =>
            obtain ⟨rows2, ed2, bd2⟩ := tr
            rw [h2] at h
            simp only [Except.ok.injEq, Prod.mk.injEq] at h
            obtain ⟨_, _, hbd⟩ := h
            subst hbd
            exact ih _ _ _ _ rows2 h2
              (flattenBooks_ok_inv _ _ _ _ _ _ _ _ h1 hinv)

theorem flattenEvents_ok_required (es : List RawEvent)
    (ed : List (String × EventRow)) (bd : List (String × BookmakerRecord))
    (out : List OddsRow × List (String × EventRow) × List (String × BookmakerRecord))
    (h : flattenEvents es ed bd = .ok out) : allRequiredPresent es = true := by
  induction es generalizing ed bd out with
  | nil => simp [allRequiredPresent]
  | cons e es ih =>
    cases hid : e.id with
    | none => simp [flattenEvents, hid] at h
    | some event_id =>
      cases hsk : e.sport_key with
      | none => simp [flattenEvents, hid, hsk] at h
      | some sport_key =>
        simp only [flattenEvents, hid, hsk] at h
        cases h1 : flattenBooks event_id e.commence_time e.home_team e.away_team
            (e.bookmakers.getD []) bd with
        | error err => rw [h1] at h; cases h
        | ok pr =>
          obtain ⟨rows1, bd1⟩ := pr
          simp only [h1] at h
          cases h2 : flattenEvents es
              (dictInsert event_id
                { event_id := event_id, sport_key := sport_key,
                  sport_title := e.sport_title, commence_time_utc := e.commence_time,
                  home_team := e.home_team, away_team := e.away_team } ed) bd1 with
          | error err => rw [h2] at h; cases h
          | ok tr =>
            have hbooks := flattenBooks_ok_required _ _ _ _ _ _ _ _ h1
            have hrest := ih _ _ _ h2
            simp only [allRequiredPresent, List.all_cons, Bool.and_eq_true] at hrest ⊢
            exact ⟨⟨by simp [hid, hsk], hbooks⟩, hrest⟩

theorem flattenEvents_ok_of_required (es : List RawEvent)
    (ed : List (String × EventRow)) (bd : List (String × BookmakerRecord))
    (hreq : allRequiredPresent es = true) :
    ∃ out, flattenEvents es ed bd = .ok out := by
  induction es generalizing ed bd with
  | nil => exact ⟨([], ed, bd), rfl⟩
  | cons e es ih =>
    simp only [allRequiredPresent, List.all_cons, Bool.and_eq_true] at hreq
    obtain ⟨⟨⟨hid, hsk⟩, hbooks⟩, hrest⟩ := hreq
    obtain ⟨event_id, hid'⟩ := Option.isSome_iff_exists.mp hid
    obtain ⟨sport_key, hsk'⟩ := Option.isSome_iff_exists.mp hsk
    obtain ⟨rows1, bd1, h1⟩ := flattenBooks_ok_of_required event_id e.commence_time
      e.home_team e.away_team (e.bookmakers.getD []) bd hbooks
    obtain ⟨⟨rows2, ed2, bd2⟩, h2⟩ := ih
      (dictInsert event_id
        { event_id := event_id, sport_key := sport_key,
          sport_title := e.sport_title, commence_time_utc := e.commence_time,
          home_team := e.home_team, away_team := e.away_team } ed) bd1
      (by simpa [allRequiredPresent] using hrest)
    refine ⟨(rows1 ++ rows2, ed2, bd2), ?_⟩
    simp only [flattenEvents, hid', hsk', h1, h2]

theorem flattenEvents_error_shape (es : List RawEvent)
    (ed : List (String × EventRow)) (bd : List (String × BookmakerRecord))
    (err : PyError) (h : flattenEvents es ed bd = .error err) :
    ∃ k, err = .keyError k := by
  induction es generalizing ed bd err with
  | nil => simp [flattenEvents] at h
  | cons e es ih =>
    cases hid : e.id with
    | none =>
      simp only [flattenEvents, hid, Except.error.injEq] at h
      exact ⟨"id", h.symm⟩
    | some event_id =>
      cases hsk : e.sport_key with
      | none =>
        simp only [flattenEvents, hid, hsk, Except.error.injEq] at h
        exact ⟨"sport_key", h.symm⟩
      | some sport_key =>
        simp only [flattenEvents, hid, hsk] at h
        cases h1 : flattenBooks event_id e.commence_time e.home_team e.away_team
            (e.bookmakers.getD []) bd with
        | error e1 =>
          rw [h1] at h
          cases h
          exact flattenBooks_error_shape _ _ _ _ _ _ _ h1
        | ok pr =>
          obtain ⟨rows1, bd1⟩ := pr
          simp only [h1] at h
          cases h2 : flattenEvents es
              (dictInsert event_id
                { event_id := event_id, sport_key := sport_key,
                  sport_title := e.sport_title, commence_time_utc := e.commence_time,
                  home_team := e.home_team, away_team := e.away_team } ed) bd1 with
          | error e2 =>
            rw [h2] at h
            cases h
            exact ih _ _ _ h2
          | ok tr => rw [h2] at h; cases h

/-! ## flatten_odds level lemmas -/

theorem columnsz_not_mem (odds_rows : List OddsRow) :
    "columnsz" ∉ oddsDfColumns odds_rows := by
  unfold oddsDfColumns
  split <;> simp

/-- With the required fields present everywhere, the shipped `flatten_odds`
always reaches the `columnsz` attribute access and raises. -/
theorem flatten_odds_always_attributeError (input : List RawEvent)
    (hreq : allRequiredPresent input = true) :
    flatten_odds input = .error (.attributeError "columnsz") := by
  obtain ⟨⟨rows, ed, bd⟩, hok⟩ := flattenEvents_ok_of_required input [] [] hreq
  simp only [flatten_odds, hok]
  simp [columnsz_not_mem rows]

/-- Inversion of a successful run of the canonical (CSV-loop) variant. -/
theorem flatten_odds_csv_ok_elim (input : List RawEvent)
    (evs : List EventRecord) (bks : List BookmakerRecord) (odds : List OddsSnapshotRecord)
    (h : flatten_odds_csv input = .ok (evs, bks, odds)) :
    ∃ rows ed bd, flattenEvents input [] [] = .ok (rows, ed, bd) ∧
      evs = (dictValues ed).map coerceEventRow ∧
      bks = dictValues bd ∧
      odds = rows.map coerceOddsRow := by
  unfold flatten_odds_csv at h
  cases hfe : flattenEvents input [] [] with
  | error e => rw [hfe] at h; cases h
  | ok tr =>
    obtain ⟨rows, ed, bd⟩ := tr
    rw [hfe] at h
    simp only [Except.ok.injEq, Prod.mk.injEq] at h
    obtain ⟨h1, h2, h3⟩ := h
    exact ⟨rows, ed, bd, rfl, h1.symm, h2.symm, h3.symm⟩

theorem flatten_odds_csv_ok_odds (input : List RawEvent)
    (evs : List EventRecord) (bks : List BookmakerRecord) (odds : List OddsSnapshotRecord)
    (h : flatten_odds_csv input = .ok (evs, bks, odds)) :
    odds = (oddsRowsOf input).map coerceOddsRow := by
  obtain ⟨rows, ed, bd, hfe, _, _, ho⟩ := flatten_odds_csv_ok_elim input evs bks odds h
  rw [ho, flattenEvents_ok_rows input [] ed [] bd rows hfe]

theorem flatten_odds_csv_ok_required (input : List RawEvent)
    (evs : List EventRecord) (bks : List BookmakerRecord) (odds : List OddsSnapshotRecord)
    (h : flatten_odds_csv input = .ok (evs, bks, odds)) :
    allRequiredPresent input = true := by
  obtain ⟨rows, ed, bd, hfe, _, _, _⟩ := flatten_odds_csv_ok_elim input evs bks odds h
  exact flattenEvents_ok_required input [] [] _ hfe

theorem flatten_odds_csv_ok_event_ids (input : List RawEvent)
    (evs : List EventRecord) (bks : List BookmakerRecord) (odds : List OddsSnapshotRecord)
    (h : flatten_odds_csv input = .ok (evs, bks, odds)) :
    ∃ ed bd rows, flattenEvents input [] [] = .ok (rows, ed, bd) ∧
      evs.map (·.event_id) = dictKeys ed := by
  obtain ⟨rows, ed, bd, hfe, he, _, _⟩ := flatten_odds_csv_ok_elim input evs bks odds h
  refine ⟨ed, bd, rows, hfe, ?_⟩
  have hinv := flattenEvents_ok_invE input [] ed [] bd rows hfe (by simp)
  have hinv' : ∀ p ∈ ed, (coerceEventRow p.2).event_id = p.1 := by
    intro p hp
    simpa [coerceEventRow] using hinv p hp
  rw [he, List.map_map]
  exact map_dictValues_eq_dictKeys (fun r => (coerceEventRow r).event_id) ed hinv'

theorem flatten_odds_csv_ok_evs_nodup (input : List RawEvent)
    (evs : List EventRecord) (bks : List BookmakerRecord) (odds : List OddsSnapshotRecord)
    (h : flatten_odds_csv input = .ok (evs, bks, odds)) :
    (evs.map (·.event_id)).Nodup := by
  obtain ⟨ed, bd, rows, hfe, hids⟩ := flatten_odds_csv_ok_event_ids input evs bks odds h
  rw [hids]
  exact flattenEvents_ok_nodupE input [] ed [] bd rows hfe (by simp [dictKeys])

theorem flatten_odds_csv_ok_evs_mem (input : List RawEvent)
    (evs : List EventRecord) (bks : List BookmakerRecord) (odds : List OddsSnapshotRecord)
    (h : flatten_odds_csv input = .ok (evs, bks, odds)) (id : String) :
    id ∈ evs.map (·.event_id) ↔ some id ∈ input.map (·.id) := by
  obtain ⟨ed, bd, rows, hfe, hids⟩ := flatten_odds_csv_ok_event_ids input evs bks odds h
  rw [hids, mem_dictKeys_iff_lookup,
    flattenEvents_ok_edict input [] ed [] bd rows hfe id]
  cases hlast : lastSuchThat (fun e => decide (e.id = some id)) input with
  | some e =>
    obtain ⟨hmem, hp⟩ := lastSuchThat_mem _ _ _ hlast
    simp only [decide_eq_true_eq] at hp
    simp only [Option.some_ne_none, ne_eq, not_false_iff, true_iff]
    exact List.mem_map.mpr ⟨e, hmem, hp⟩
  | none =>
    rw [lastSuchThat_eq_none_iff] at hlast
    simp only [dictLookup, ne_eq, not_true, false_iff]
    intro hc
    obtain ⟨e, hmem, hid⟩ := List.mem_map.mp hc
    have := hlast e hmem
    rw [hid] at this
    simp at this

theorem flatten_odds_csv_ok_evs_find (input : List RawEvent)
    (evs : List EventRecord) (bks : List BookmakerRecord) (odds : List OddsSnapshotRecord)
    (h : flatten_odds_csv input = .ok (evs, bks, odds)) (id : String) :
    evs.find? (fun r => decide (r.event_id = id)) =
      (lastSuchThat (fun e => decide (e.id = some id)) input).map
        (fun e => coerceEventRow (eventRowOf e)) := by
  obtain ⟨rows, ed, bd, hfe, he, _, _⟩ := flatten_odds_csv_ok_elim input evs bks odds h
  have hinv := flattenEvents_ok_invE input [] ed [] bd rows hfe (by simp)
  rw [he, List.find?_map]
  have hfn : ((fun r : EventRecord => decide (r.event_id = id)) ∘ coerceEventRow) =
      (fun r : EventRow => decide (r.event_id = id)) := by
    funext r
    simp [coerceEventRow]
  rw [hfn, find?_dictValues EventRow.event_id id ed hinv,
    flattenEvents_ok_edict input [] ed [] bd rows hfe id]
  cases lastSuchThat (fun e => decide (e.id = some id)) input <;> simp [dictLookup]

theorem flatten_odds_csv_ok_bks_keys (input : List RawEvent)
    (evs : List EventRecord) (bks : List BookmakerRecord) (odds : List OddsSnapshotRecord)
    (h : flatten_odds_csv input = .ok (evs, bks, odds)) :
    ∃ ed bd rows, flattenEvents input [] [] = .ok (rows, ed, bd) ∧
      bks.map (·.bookmaker_key) = dictKeys bd := by
  obtain ⟨rows, ed, bd, hfe, _, hb, _⟩ := flatten_odds_csv_ok_elim input evs bks odds h
  refine ⟨ed, bd, rows, hfe, ?_⟩
  have hinv := flattenEvents_ok_invB input [] ed [] bd rows hfe (by simp)
  rw [hb]
  exact map_dictValues_eq_dictKeys (fun r => r.bookmaker_key) bd hinv

theorem flatten_odds_csv_ok_bks_nodup (input : List RawEvent)
    (evs : List EventRecord) (bks : List BookmakerRecord) (odds : List OddsSnapshotRecord)
    (h : flatten_odds_csv input = .ok (evs, bks, odds)) :
    (bks.map (·.bookmaker_key)).Nodup := by
  obtain ⟨ed, bd, rows, hfe, hks⟩ := flatten_odds_csv_ok_bks_keys input evs bks odds h
  rw [hks]
  exact flattenEvents_ok_nodupB input [] ed [] bd rows hfe (by simp [dictKeys])

theorem flatten_odds_csv_ok_bks_mem (input : List RawEvent)
    (evs : List EventRecord) (bks : List BookmakerRecord) (odds : List OddsSnapshotRecord)
    (h : flatten_odds_csv input = .ok (evs, bks, odds)) (k : String) :
    k ∈ bks.map (·.bookmaker_key) ↔ some k ∈ (bookOccurrences input).map (·.key) := by
  obtain ⟨ed, bd, rows, hfe, hks⟩ := flatten_odds_csv_ok_bks_keys input evs bks odds h
  rw [hks, mem_dictKeys_iff_lookup,
    flattenEvents_ok_bdict input [] ed [] bd rows hfe k]
  cases hlast : lastSuchThat (fun b => decide (b.key = some k)) (bookOccurrences input) with
  | some b =>
    obtain ⟨hmem, hp⟩ := lastSuchThat_mem _ _ _ hlast
    simp only [decide_eq_true_eq] at hp
    simp only [Option.some_ne_none, ne_eq, not_false_iff, true_iff]
    exact List.mem_map.mpr ⟨b, hmem, hp⟩
  | none =>
    rw [lastSuchThat_eq_none_iff] at hlast
    simp only [dictLookup, ne_eq, not_true, false_iff]
    intro hc
    obtain ⟨b, hmem, hk⟩ := List.mem_map.mp hc
    have := hlast b hmem
    rw [hk] at this
    simp at this

theorem flatten_odds_csv_ok_bks_find (input : List RawEvent)
    (evs : List EventRecord) (bks : List BookmakerRecord) (odds : List OddsSnapshotRecord)
    (h : flatten_odds_csv input = .ok (evs, bks, odds)) (k : String) :
    bks.find? (fun r => decide (r.bookmaker_key = k)) =
      (lastSuchThat (fun b => decide (b.key = some k)) (bookOccurrences input)).map
        (fun b => { bookmaker_key := k, bookmaker_title := b.title }) := by
  obtain ⟨rows, ed, bd, hfe, _, hb, _⟩ := flatten_odds_csv_ok_elim input evs bks odds h
  have hinv := flattenEvents_ok_invB input [] ed [] bd rows hfe (by simp)
  rw [hb, find?_dictValues BookmakerRecord.bookmaker_key k bd hinv,
    flattenEvents_ok_bdict input [] ed [] bd rows hfe k]
  cases lastSuchThat (fun b => decide (b.key = some k)) (bookOccurrences input) <;>
    simp [dictLookup]

theorem length_flatMap_sum (l : List α) (f : α → List β) :
    (l.flatMap f).length = (l.map (fun a => (f a).length)).sum := by
  induction l with
  | nil => simp
  | cons x xs ih => simp [List.flatMap_cons, ih]

theorem length_oddsRowsOf (es : List RawEvent) :
    (oddsRowsOf es).length = totalOutcomes es := by
  unfold oddsRowsOf totalOutcomes
  simp only [length_flatMap_sum, List.length_map]

/-! ## Concrete batches used by witnesses and counterexamples -/

/-- Outcome A of the end-to-end scenario of spec section 8. -/
def sampleOutcomeA : RawOutcome := { name := some "A", price := some (-150), point := none }

/-- Outcome B of the end-to-end scenario of spec section 8. -/
def sampleOutcomeB : RawOutcome := { name := some "B", price := some 130, point := none }

/-- Head-to-head market of the end-to-end scenario; no own last-update. -/
def sampleMarket : RawMarket :=
  { key := some "h2h", last_update := none, outcomes := some [sampleOutcomeA, sampleOutcomeB] }

/-- Bookmaker of the end-to-end scenario, carrying a last-update. -/
def sampleBook : RawBookmaker :=
  { key := some "bk1", title := some "Book One",
    last_update := some "2024-01-01T12:00:00Z", markets := some [sampleMarket] }

/-- The end-to-end scenario event of spec section 8. -/
def sampleEvent : RawEvent :=
  { id := some "evt1", sport_key := some "americanfootball_nfl", sport_title := some "NFL",
    commence_time := some "2024-01-01T18:00:00Z", home_team := some "A", away_team := some "B",
    bookmakers := some [sampleBook] }

/-- Expected events output for `[sampleEvent]`. -/
def sampleEventsOut : List EventRecord :=
  [{ event_id := "evt1", sport_key := "americanfootball_nfl", sport_title := some "NFL",
     commence_time_utc := some 72750333600, home_team := some "A", away_team := some "B" }]

/-- Expected bookmakers output for `[sampleEvent]`. -/
def sampleBooksOut : List BookmakerRecord :=
  [{ bookmaker_key := "bk1", bookmaker_title := some "Book One" }]

/-- Expected first fact row for `[sampleEvent]`. -/
def sampleRow0 : OddsSnapshotRecord :=
  { event_id := "evt1", bookmaker_key := "bk1", market_key := "h2h",
    outcome_name := some "A", is_home_team := some true, price_american := some (-150),
    line_point := none, event_commence_utc := some 72750333600,
    market_last_update := some 72750312000 }

/-- Expected second fact row for `[sampleEvent]`. -/
def sampleRow1 : OddsSnapshotRecord :=
  { event_id := "evt1", bookmaker_key := "bk1", market_key := "h2h",
    outcome_name := some "B", is_home_team := some false, price_american := some 130,
    line_point := none, event_commence_utc := some 72750333600,
    market_last_update := some 72750312000 }

/-- Expected odds output for `[sampleEvent]`. -/
def sampleOddsOut : List OddsSnapshotRecord := [sampleRow0, sampleRow1]

/-- Event whose commence time is not a timestamp and whose bookmaker
last-update is garbage, while the market has no own last-update. -/
def badTimestampEvent : RawEvent :=
  { id := some "evt1", sport_key := some "nfl", sport_title := none,
    commence_time := some "not-a-date", home_team := some "A", away_team := some "B",
    bookmakers := some [
      { key := some "bk1", title := none, last_update := some "garbage",
        markets := some [
          { key := some "h2h", last_update := none,
            outcomes := some [
              { name := some "A", price := some (-150), point := none } ] } ] } ] }

/-- Event with a home team but no away team whose single outcome is named
exactly like the home team. -/
def awayMissingEvent : RawEvent :=
  { id := some "evt1", sport_key := some "nfl", sport_title := none,
    commence_time := none, home_team := some "Eagles", away_team := none,
    bookmakers := some [
      { key := some "bk1", title := none, last_update := none,
        markets := some [
          { key := some "h2h", last_update := none,
            outcomes := some [
              { name := some "Eagles", price := some (-150), point := none } ] } ] } ] }

/-- Outcome of the earlier duplicate event. -/
def dupOutcomeA : RawOutcome := { name := some "A", price := some (-150), point := none }

/-- Market of the earlier duplicate event, with its own last-update. -/
def dupMarketEarly : RawMarket :=
  { key := some "h2h", last_update := some "2024-01-01T12:00:00Z",
    outcomes := some [dupOutcomeA] }

/-- Bookmaker bk1 as listed by the earlier duplicate event, title Alpha. -/
def dupBookEarly : RawBookmaker :=
  { key := some "bk1", title := some "Alpha", last_update := none,
    markets := some [dupMarketEarly] }

/-- Earlier occurrence of event identifier evt1. -/
def dupEventEarly : RawEvent :=
  { id := some "evt1", sport_key := some "nfl", sport_title := none,
    commence_time := some "2024-01-01T18:00:00Z", home_team := some "A", away_team := some "B",
    bookmakers := some [dupBookEarly] }

/-- Later occurrence of event identifier evt1: different commence time,
different teams, and bookmaker bk1 again but with title Beta. -/
def dupEventLate : RawEvent :=
  { id := some "evt1", sport_key := some "nfl", sport_title := none,
    commence_time := some "2024-02-02T20:00:00Z", home_team := some "C", away_team := some "D",
    bookmakers := some [
      { key := some "bk1", title := some "Beta", last_update := none, markets := some [] } ] }

/-- Expected events output for the duplicate pair: one record, the later
fields surviving. -/
def dupEventsOut : List EventRecord :=
  [{ event_id := "evt1", sport_key := "nfl", sport_title := none,
     commence_time_utc := some 72753192000, home_team := some "C", away_team := some "D" }]

/-- Expected bookmakers output for the duplicate pair: one record, the later
title surviving. -/
def dupBooksOut : List BookmakerRecord :=
  [{ bookmaker_key := "bk1", bookmaker_title := some "Beta" }]

/-- Expected odds output for the duplicate pair: the single fact row keeps
the commence time of the earlier occurrence that contained it. -/
def dupOddsOut : List OddsSnapshotRecord :=
  [{ event_id := "evt1", bookmaker_key := "bk1", market_key := "h2h",
     outcome_name := some "A", is_home_team := some true, price_american := some (-150),
     line_point := none, event_commence_utc := some 72750333600,
     market_last_update := some 72750312000 }]

/-- Event lacking the required sport key. -/
def missingSportKeyEvent : RawEvent :=
  { id := some "evt1", sport_key := none, sport_title := none, commence_time := none,
    home_team := none, away_team := none, bookmakers := none }

/-- Truth table of the is-home-team derivation of lines 72-77. -/
theorem isHomeTeam_spec (name home away : Option String) :
    (isHomeTeam name home away = some true ↔
      pyTruthy name = true ∧ pyTruthy home = true ∧ name = home) ∧
    (isHomeTeam name home away = some false ↔
      pyTruthy name = true ∧ pyTruthy home = true ∧ ¬ name = home ∧ name = away) ∧
    (isHomeTeam name home away = none ↔
      ¬ (pyTruthy name = true ∧ pyTruthy home = true ∧ (name = home ∨ name = away))) := by
  by_cases h1 : pyTruthy name = true
  · by_cases h2 : pyTruthy home = true
    · by_cases h3 : name = home
      · simp [isHomeTeam, h1, h2, h3]
      · by_cases h4 : name = away
        · subst h4
          simp [isHomeTeam, h1, h2, h3]
        · simp [isHomeTeam, h1, h2, h3, h4]
    · simp [isHomeTeam, h1, h2]
  · simp [isHomeTeam, h1]

/-! ## Claim theorems -/

/-- C1: the claim says the empty input yields three empty outputs without
error. The shipped `flatten_odds` instead raises AttributeError at the
`odds_df.columnsz` access of line 101 even on the empty input; the canonical
CSV-loop variant returns the three empty outputs the claim describes. -/
theorem C1_empty_input :
    flatten_odds [] = .error (.attributeError "columnsz") ∧
    flatten_odds_csv [] = .ok ([], [], []) :=
  ⟨rfl, rfl⟩

/-- C2: the claim says absent, empty or unreadable timestamp strings become
null in the output and that flattening never raises. The shipped
`flatten_odds` raises AttributeError at the `odds_df.columnsz` access of
line 101 on every input, here on an event whose commence time is
`not-a-date`; the canonical CSV-loop variant returns the outputs with every
unreadable timestamp coerced to null, as the claim describes, and
`pdToDatetime` sends absent, empty and unreadable strings to null. -/
theorem C2_timestamp_defect :
    flatten_odds [badTimestampEvent] = .error (.attributeError "columnsz") ∧
    flatten_odds_csv [badTimestampEvent] =
      .ok ([{ event_id := "evt1", sport_key := "nfl", sport_title := none,
              commence_time_utc := none, home_team := some "A", away_team := some "B" }],
           [{ bookmaker_key := "bk1", bookmaker_title := none }],
           [{ event_id := "evt1", bookmaker_key := "bk1", market_key := "h2h",
              outcome_name := some "A", is_home_team := some true,
              price_american := some (-150), line_point := none,
              event_commence_utc := none, market_last_update := none }]) ∧
    pdToDatetime none = none ∧
    pdToDatetime (some "") = none ∧
    pdToDatetime (some "not-a-date") = none :=
  ⟨rfl, rfl, rfl, rfl, rfl⟩

/-- C3 counterexample: the claim requires the flag to be null whenever the
away team name is missing, yet on an event with home team Eagles, no away
team, and an outcome named Eagles, the produced fact row carries the flag
`some true`. -/
theorem C3_counterexample :
    awayMissingEvent.away_team = none ∧
    flatten_odds_csv [awayMissingEvent] =
      .ok ([{ event_id := "evt1", sport_key := "nfl", sport_title := none,
              commence_time_utc := none, home_team := some "Eagles", away_team := none }],
           [{ bookmaker_key := "bk1", bookmaker_title := none }],
           [{ event_id := "evt1", bookmaker_key := "bk1", market_key := "h2h",
              outcome_name := some "Eagles", is_home_team := some true,
              price_american := some (-150), line_point := none,
              event_commence_utc := none, market_last_update := none }]) :=
  ⟨rfl, rfl⟩

/-- C3 (amended): every fact row is the row of its originating outcome, and
the flag of that row is `some true` iff the outcome name and the home team
name are present and nonempty and equal; `some false` iff both are present
and nonempty, the outcome name differs from the home team name and equals
the away team name; and null in every other case — in particular when the
outcome name or the home team name is missing or empty, or when the outcome
name matches neither team name. Absence of the away team alone does not
force null. -/
theorem C3_is_home_team (input : List RawEvent)
    (evs : List EventRecord) (bks : List BookmakerRecord) (odds : List OddsSnapshotRecord)
    (h : flatten_odds_csv input = .ok (evs, bks, odds)) :
    odds = (oddsRowsOf input).map coerceOddsRow ∧
    ∀ (e : RawEvent) (b : RawBookmaker) (m : RawMarket) (o : RawOutcome),
      ((mkRowE e b m o).is_home_team = some true ↔
        pyTruthy o.name = true ∧ pyTruthy e.home_team = true ∧ o.name = e.home_team) ∧
      ((mkRowE e b m o).is_home_team = some false ↔
        pyTruthy o.name = true ∧ pyTruthy e.home_team = true ∧
          ¬ o.name = e.home_team ∧ o.name = e.away_team) ∧
      ((mkRowE e b m o).is_home_team = none ↔
        ¬ (pyTruthy o.name = true ∧ pyTruthy e.home_team = true ∧
            (o.name = e.home_team ∨ o.name = e.away_team))) := by
  refine ⟨flatten_odds_csv_ok_odds _ _ _ _ h, ?_⟩
  intro e b m o
  have hfl : (mkRowE e b m o).is_home_team = isHomeTeam o.name e.home_team e.away_team := rfl
  rw [hfl]
  exact isHomeTeam_spec o.name e.home_team e.away_team

/-- C3 witness: the amended statement instantiated on the end-to-end
scenario batch and on the two outcomes of its head-to-head market. -/
theorem C3_is_home_team_witness :
    sampleOddsOut = (oddsRowsOf [sampleEvent]).map coerceOddsRow ∧
    ((mkRowE sampleEvent sampleBook sampleMarket sampleOutcomeA).is_home_team = some true ↔
      pyTruthy sampleOutcomeA.name = true ∧ pyTruthy sampleEvent.home_team = true ∧
        sampleOutcomeA.name = sampleEvent.home_team) ∧
    ((mkRowE sampleEvent sampleBook sampleMarket sampleOutcomeB).is_home_team = some false ↔
      pyTruthy sampleOutcomeB.name = true ∧ pyTruthy sampleEvent.home_team = true ∧
        ¬ sampleOutcomeB.name = sampleEvent.home_team ∧
          sampleOutcomeB.name = sampleEvent.away_team) :=
  ⟨(C3_is_home_team [sampleEvent] sampleEventsOut sampleBooksOut sampleOddsOut rfl).1,
   ((C3_is_home_team [sampleEvent] sampleEventsOut sampleBooksOut sampleOddsOut rfl).2
      sampleEvent sampleBook sampleMarket sampleOutcomeA).1,
   ((C3_is_home_team [sampleEvent] sampleEventsOut sampleBooksOut sampleOddsOut rfl).2
      sampleEvent sampleBook sampleMarket sampleOutcomeB).2.1⟩

/-- C4: the events output holds exactly one record per distinct event
identifier of the input — the identifiers listed are free of duplicates and
are exactly the identifiers occurring in the input — and the record found
for an identifier is the one built from the last input occurrence of that
identifier (last-write-wins). -/
theorem C4_events_last_write_wins (input : List RawEvent)
    (evs : List EventRecord) (bks : List BookmakerRecord) (odds : List OddsSnapshotRecord)
    (h : flatten_odds_csv input = .ok (evs, bks, odds)) :
    (evs.map (·.event_id)).Nodup ∧
    (∀ id, id ∈ evs.map (·.event_id) ↔ some id ∈ input.map (·.id)) ∧
    (∀ id, evs.find? (fun r => decide (r.event_id = id)) =
      (lastSuchThat (fun e => decide (e.id = some id)) input).map
        (fun e => coerceEventRow (eventRowOf e))) :=
  ⟨flatten_odds_csv_ok_evs_nodup input evs bks odds h,
   fun id => flatten_odds_csv_ok_evs_mem input evs bks odds h id,
   fun id => flatten_odds_csv_ok_evs_find input evs bks odds h id⟩

/-- C4 witness: two input events share identifier evt1 with different home
teams and commence times; the single resulting record carries the fields of
the later occurrence. -/
theorem C4_events_last_write_wins_witness :
    (dupEventsOut.map (·.event_id)).Nodup ∧
    ("evt1" ∈ dupEventsOut.map (·.event_id) ↔
      some "evt1" ∈ [dupEventEarly, dupEventLate].map (·.id)) ∧
    dupEventsOut.find? (fun r => decide (r.event_id = "evt1")) =
      (lastSuchThat (fun e => decide (e.id = some "evt1")) [dupEventEarly, dupEventLate]).map
        (fun e => coerceEventRow (eventRowOf e)) :=
  ⟨(C4_events_last_write_wins [dupEventEarly, dupEventLate]
      dupEventsOut dupBooksOut dupOddsOut rfl).1,
   (C4_events_last_write_wins [dupEventEarly, dupEventLate]
      dupEventsOut dupBooksOut dupOddsOut rfl).2.1 "evt1",
   (C4_events_last_write_wins [dupEventEarly, dupEventLate]
      dupEventsOut dupBooksOut dupOddsOut rfl).2.2 "evt1"⟩

/-- C5: the bookmakers output holds exactly one record per distinct
bookmaker key across all events of the batch — keys are free of duplicates
and are exactly the keys of the bookmaker occurrences of the whole batch —
and the record found for a key carries the title of the last occurrence of
that key in traversal order, across events. -/
theorem C5_bookmakers_last_write_wins (input : List RawEvent)
    (evs : List EventRecord) (bks : List BookmakerRecord) (odds : List OddsSnapshotRecord)
    (h : flatten_odds_csv input = .ok (evs, bks, odds)) :
    (bks.map (·.bookmaker_key)).Nodup ∧
    (∀ k, k ∈ bks.map (·.bookmaker_key) ↔ some k ∈ (bookOccurrences input).map (·.key)) ∧
    (∀ k, bks.find? (fun r => decide (r.bookmaker_key = k)) =
      (lastSuchThat (fun b => decide (b.key = some k)) (bookOccurrences input)).map
        (fun b => { bookmaker_key := k, bookmaker_title := b.title })) :=
  ⟨flatten_odds_csv_ok_bks_nodup input evs bks odds h,
   fun k => flatten_odds_csv_ok_bks_mem input evs bks odds h k,
   fun k => flatten_odds_csv_ok_bks_find input evs bks odds h k⟩

/-- C5 witness: two different events list bookmaker bk1 with titles Alpha
and then Beta; one record results and it carries the later title Beta. -/
theorem C5_bookmakers_last_write_wins_witness :
    (dupBooksOut.map (·.bookmaker_key)).Nodup ∧
    ("bk1" ∈ dupBooksOut.map (·.bookmaker_key) ↔
      some "bk1" ∈ (bookOccurrences [dupEventEarly, dupEventLate]).map (·.key)) ∧
    dupBooksOut.find? (fun r => decide (r.bookmaker_key = "bk1")) =
      (lastSuchThat (fun b => decide (b.key = some "bk1"))
          (bookOccurrences [dupEventEarly, dupEventLate])).map
        (fun b => { bookmaker_key := "bk1", bookmaker_title := b.title }) :=
  ⟨(C5_bookmakers_last_write_wins [dupEventEarly, dupEventLate]
      dupEventsOut dupBooksOut dupOddsOut rfl).1,
   (C5_bookmakers_last_write_wins [dupEventEarly, dupEventLate]
      dupEventsOut dupBooksOut dupOddsOut rfl).2.1 "bk1",
   (C5_bookmakers_last_write_wins [dupEventEarly, dupEventLate]
      dupEventsOut dupBooksOut dupOddsOut rfl).2.2 "bk1"⟩

/-- C6: the odds output is exactly the per-outcome comprehension of the
input, and the effective last-update written into the row of outcome `o` of
market `m` under bookmaker `b` is the own last-update of `m` when present,
and otherwise the last-update of `b`; the value depends only on the tuple
(e, b, m, o), so the fallback is computed independently per market. -/
theorem C6_market_last_update_fallback (input : List RawEvent)
    (evs : List EventRecord) (bks : List BookmakerRecord) (odds : List OddsSnapshotRecord)
    (h : flatten_odds_csv input = .ok (evs, bks, odds)) :
    odds = (oddsRowsOf input).map coerceOddsRow ∧
    (∀ (e : RawEvent) (b : RawBookmaker) (m : RawMarket) (o : RawOutcome) (s : String),
      m.last_update = some s → (mkRowE e b m o).market_last_update = some s) ∧
    (∀ (e : RawEvent) (b : RawBookmaker) (m : RawMarket) (o : RawOutcome),
      m.last_update = none → (mkRowE e b m o).market_last_update = b.last_update) := by
  refine ⟨flatten_odds_csv_ok_odds _ _ _ _ h, ?_, ?_⟩
  · intro e b m o s hs
    simp [mkRowE, hs]
  · intro e b m o hn
    simp [mkRowE, hn]

/-- C6 witness: on the end-to-end batch the market has no own last-update
and inherits the bookmaker value, while the market of the earlier duplicate
event has its own last-update and keeps it. -/
theorem C6_market_last_update_fallback_witness :
    sampleOddsOut = (oddsRowsOf [sampleEvent]).map coerceOddsRow ∧
    (mkRowE dupEventEarly dupBookEarly dupMarketEarly dupOutcomeA).market_last_update =
      some "2024-01-01T12:00:00Z" ∧
    (mkRowE sampleEvent sampleBook sampleMarket sampleOutcomeA).market_last_update =
      sampleBook.last_update :=
  ⟨(C6_market_last_update_fallback [sampleEvent]
      sampleEventsOut sampleBooksOut sampleOddsOut rfl).1,
   (C6_market_last_update_fallback [sampleEvent]
      sampleEventsOut sampleBooksOut sampleOddsOut rfl).2.1
      dupEventEarly dupBookEarly dupMarketEarly dupOutcomeA "2024-01-01T12:00:00Z" rfl,
   (C6_market_last_update_fallback [sampleEvent]
      sampleEventsOut sampleBooksOut sampleOddsOut rfl).2.2
      sampleEvent sampleBook sampleMarket sampleOutcomeA rfl⟩

/-- C7: the odds output is exactly the flat comprehension mapping each
outcome of each (event, bookmaker, market) triple to its one coerced fact
row, in input traversal order and with no deduplication, and therefore its
length equals the total number of outcome structures of the input. -/
theorem C7_snapshot_count (input : List RawEvent)
    (evs : List EventRecord) (bks : List BookmakerRecord) (odds : List OddsSnapshotRecord)
    (h : flatten_odds_csv input = .ok (evs, bks, odds)) :
    odds = (oddsRowsOf input).map coerceOddsRow ∧
    odds.length = totalOutcomes input := by
  refine ⟨flatten_odds_csv_ok_odds input evs bks odds h, ?_⟩
  rw [flatten_odds_csv_ok_odds input evs bks odds h, List.length_map, length_oddsRowsOf]

/-- C7 witness: the end-to-end batch yields exactly the two rows of its two
outcomes, in order, and the count matches the outcome count. -/
theorem C7_snapshot_count_witness :
    sampleOddsOut = (oddsRowsOf [sampleEvent]).map coerceOddsRow ∧
    sampleOddsOut.length = totalOutcomes [sampleEvent] :=
  ⟨(C7_snapshot_count [sampleEvent] sampleEventsOut sampleBooksOut sampleOddsOut rfl).1,
   (C7_snapshot_count [sampleEvent] sampleEventsOut sampleBooksOut sampleOddsOut rfl).2⟩

/-- C8: when some event lacks its identifier or its sport key, or some
bookmaker or market lacks its key, the shipped `flatten_odds` fails with a
KeyError that propagates out (no partial output, no skipping); when all four
required fields are present on every such structure, no KeyError occurs. -/
theorem C8_required_fields (input : List RawEvent) :
    (allRequiredPresent input = true →
      ∀ k, flatten_odds input ≠ .error (.keyError k)) ∧
    (allRequiredPresent input = false →
      ∃ k, flatten_odds input = .error (.keyError k)) := by
  constructor
  · intro hreq k
    rw [flatten_odds_always_attributeError input hreq]
    simp
  · intro hreq
    cases hfe : flattenEvents input [] [] with
    | ok out =>
      have hok := flattenEvents_ok_required input [] [] out hfe
      rw [hreq] at hok
      cases hok
    | error err =>
      obtain ⟨k, hk⟩ := flattenEvents_error_shape input [] [] err hfe
      refine ⟨k, ?_⟩
      subst hk
      simp only [flatten_odds, hfe]

/-- C8 witness: the well-formed end-to-end batch raises no KeyError, while a
batch whose event lacks the sport key raises a KeyError. -/
theorem C8_required_fields_witness :
    (∀ k, flatten_odds [sampleEvent] ≠ .error (.keyError k)) ∧
    (∃ k, flatten_odds [missingSportKeyEvent] = .error (.keyError k)) :=
  ⟨(C8_required_fields [sampleEvent]).1 (by decide),
   (C8_required_fields [missingSportKeyEvent]).2 (by decide)⟩

/-- C9: every fact row of a batch carries an event identifier that appears
among the identifiers of the events output of the same batch, and a
bookmaker key that appears among the keys of the bookmakers output of the
same batch. -/
theorem C9_referential_integrity (input : List RawEvent)
    (evs : List EventRecord) (bks : List BookmakerRecord) (odds : List OddsSnapshotRecord)
    (h : flatten_odds_csv input = .ok (evs, bks, odds)) :
    ∀ r ∈ odds, r.event_id ∈ evs.map (·.event_id) ∧
      r.bookmaker_key ∈ bks.map (·.bookmaker_key) := by
  intro r hr
  rw [flatten_odds_csv_ok_odds input evs bks odds h] at hr
  obtain ⟨r', hr', hco⟩ := List.mem_map.mp hr
  simp only [oddsRowsOf, List.mem_flatMap, List.mem_map] at hr'
  obtain ⟨e, he, b, hb, m, hm, o, ho, hrow⟩ := hr'
  have hreq := flatten_odds_csv_ok_required input evs bks odds h
  simp only [allRequiredPresent, List.all_eq_true, Bool.and_eq_true] at hreq
  obtain ⟨⟨hid, _⟩, hbooks⟩ := hreq e he
  obtain ⟨hkeyb, _⟩ := hbooks b hb
  obtain ⟨eid, hide⟩ := Option.isSome_iff_exists.mp hid
  obtain ⟨bkey, hkb⟩ := Option.isSome_iff_exists.mp hkeyb
  subst hrow
  subst hco
  constructor
  · rw [flatten_odds_csv_ok_evs_mem input evs bks odds h]
    have hval : (coerceOddsRow (mkRowE e b m o)).event_id = eid := by
      simp [coerceOddsRow, mkRowE, hide]
    rw [hval]
    exact List.mem_map.mpr ⟨e, he, hide⟩
  · rw [flatten_odds_csv_ok_bks_mem input evs bks odds h]
    have hval : (coerceOddsRow (mkRowE e b m o)).bookmaker_key = bkey := by
      simp [coerceOddsRow, mkRowE, hkb]
    rw [hval]
    refine List.mem_map.mpr ⟨b, ?_, hkb⟩
    simp only [bookOccurrences, List.mem_flatMap]
    exact ⟨e, he, hb⟩

/-- C9 witness: the first fact row of the end-to-end batch references the
event identifier and the bookmaker key present in the dimension outputs. -/
theorem C9_referential_integrity_witness :
    sampleRow0.event_id ∈ sampleEventsOut.map (·.event_id) ∧
    sampleRow0.bookmaker_key ∈ sampleBooksOut.map (·.bookmaker_key) :=
  C9_referential_integrity [sampleEvent] sampleEventsOut sampleBooksOut sampleOddsOut rfl
    sampleRow0 (by decide)

/-- C10: every fact row carries the commence time of the particular input
occurrence of the event that contained its outcome (the comprehension builds
the row from that occurrence), while the events output keeps only the record
of the last occurrence of each identifier; with two occurrences of one
identifier carrying different commence times, the denormalized copy on rows
of the earlier occurrence disagrees with the surviving dimension record. -/
theorem C10_denormalized_commence_time (input : List RawEvent)
    (evs : List EventRecord) (bks : List BookmakerRecord) (odds : List OddsSnapshotRecord)
    (h : flatten_odds_csv input = .ok (evs, bks, odds)) :
    odds = (oddsRowsOf input).map coerceOddsRow ∧
    (∀ (e : RawEvent) (b : RawBookmaker) (m : RawMarket) (o : RawOutcome),
      (coerceOddsRow (mkRowE e b m o)).event_commence_utc = pdToDatetime e.commence_time) ∧
    (∀ id, evs.find? (fun r => decide (r.event_id = id)) =
      (lastSuchThat (fun e => decide (e.id = some id)) input).map
        (fun e => coerceEventRow (eventRowOf e))) := by
  refine ⟨flatten_odds_csv_ok_odds _ _ _ _ h, ?_,
    fun id => flatten_odds_csv_ok_evs_find input evs bks odds h id⟩
  intro e b m o
  simp [coerceOddsRow, mkRowE]

/-- C10 witness: with two occurrences of evt1, the single fact row keeps the
commence instant of the earlier occurrence while the surviving record holds
the one of the later occurrence, and the two instants differ. -/
theorem C10_denormalized_commence_time_witness :
    dupOddsOut = (oddsRowsOf [dupEventEarly, dupEventLate]).map coerceOddsRow ∧
    (coerceOddsRow (mkRowE dupEventEarly dupBookEarly dupMarketEarly dupOutcomeA)).event_commence_utc =
      pdToDatetime dupEventEarly.commence_time ∧
    dupEventsOut.find? (fun r => decide (r.event_id = "evt1")) =
      (lastSuchThat (fun e => decide (e.id = some "evt1")) [dupEventEarly, dupEventLate]).map
        (fun e => coerceEventRow (eventRowOf e)) :=
  ⟨(C10_denormalized_commence_time [dupEventEarly, dupEventLate]
      dupEventsOut dupBooksOut dupOddsOut rfl).1,
   (C10_denormalized_commence_time [dupEventEarly, dupEventLate]
      dupEventsOut dupBooksOut dupOddsOut rfl).2.1
      dupEventEarly dupBookEarly dupMarketEarly dupOutcomeA,
   (C10_denormalized_commence_time [dupEventEarly, dupEventLate]
      dupEventsOut dupBooksOut dupOddsOut rfl).2.2 "evt1"⟩
